import Mathlib

/-!
Verification of the structscan binding engine (go-sqlt/structscan).

Shallow embedding of the library's core:

* the row-iteration runner (`runner.all`, `runner.one`, `runner.first` in
  structscan.go:185-263) over an abstract row cursor;
* field-path resolution (`Schema.makeField`, structscan.go:320-380) over a
  model of Go's reflected type tree;
* the setter built by `makeSetter` (structscan.go:2374-2412) as specialised
  by `IntScanner.To` (structscan.go:895-946) and `UintScanner.To`
  (structscan.go:1125-1176) for integer-kind destination fields;
* the NULL-handling branches of `fieldScanner.Scan` (structscan.go:547-579),
  `valueFieldScanner.Scan` (structscan.go:2313-2341) and the older
  `ValueField.Scan` / `ValueField.Default` (unnamed part_005:1238-1275);
* the `Split` string converter (structscan.go:865-873) together with the
  `[]string` destination case of `StringSliceScanner.To`
  (structscan.go:2212-2275).

Machine integers are modelled as `Int` with explicit range conditions and
`% 2^w` where Go's conversion semantics wrap.  Go's `error` results are
modelled by `Except` / `Option`; `errors.Join` over the pair
(primary error, close error) is modelled by list concatenation over an
error list, the empty list standing for a nil Go error.
-/

set_option autoImplicit false

namespace Structscan

/--
Abstract errors flowing through a row-reading operation.  `noRows` models
`sql.ErrNoRows`, `tooManyRows` models the package-level sentinel
`ErrTooManyRows` (structscan.go:211).  `scanFail` stands for a driver error
returned by `rows.Scan`, `convFail` for an error returned by a scanner's
setter (a conversion/assignment failure), `iterFail` for the terminal error
reported by `rows.Err()`, and `closeFail` for the error reported by
`rows.Close()`.  The `Nat` payloads keep distinct concrete errors apart.
-/
inductive Err where
  | noRows
  | tooManyRows
  | scanFail (code : Nat)
  | convFail (code : Nat)
  | iterFail (code : Nat)
  | closeFail (code : Nat)
  deriving DecidableEq, Repr

/--
Model of the abstract row cursor (`*sql.Rows` as used by the runner).
`rows` lists the outcomes of the successive successful `Next()` calls: each
element is the result of `rows.Scan` on that row (`Except.ok` with the
scanned source values, or `Except.error` with the driver error).  After the
list is exhausted `Next()` returns `false` and `rows.Err()` reports
`iterErr` (none on clean exhaustion); before exhaustion `rows.Err()`
reports no error.  `rows.Close()` reports `closeErr` (idempotent).
-/
structure Cursor (σ : Type) where
  rows : List (Except Err σ)
  iterErr : Option Err
  closeErr : Option Err

/--
Model of the setter loop `for i, set := range r.set { ... set(&t) ... }`
(structscan.go:197-203, 226-232, 254-260): each setter reads its scanned
source out of `s` and updates the target `t`; the loop stops at the first
failing setter, returning the target built so far together with the error.
A single Go setter either fails before writing or writes its field
completely, so it is modelled as a pure `σ → T → Except Err T`.
-/
def applySetters {σ T : Type} (sets : List (σ → T → Except Err T)) (s : σ) :
    T → T × Option Err
  | t =>
    match sets with
    | [] => (t, none)
    | f :: rest =>
      match f s t with
      | Except.error e => (t, some e)
      | Except.ok t2 => applySetters rest s t2

/--
The outcome of processing one cursor row against a freshly zeroed target
(`var t T` followed by the setter loop): either the built value or the
first error (driver scan error or setter error).
-/
def processRow {σ T : Type} (sets : List (σ → T → Except Err T)) (zero : T)
    (r : Except Err σ) : Except Err T :=
  match r with
  | Except.error e => Except.error e
  | Except.ok s =>
    match applySetters sets s zero with
    | (_, some e) => Except.error e
    | (t, none) => Except.ok t

/-- Processing a whole row list, stopping at the first failing row. -/
def processRows {σ T : Type} (sets : List (σ → T → Except Err T)) (zero : T) :
    List (Except Err σ) → Except Err (List T)
  | [] => Except.ok []
  | r :: rest =>
    match processRow sets zero r with
    | Except.error e => Except.error e
    | Except.ok t =>
      match processRows sets zero rest with
      | Except.error e => Except.error e
      | Except.ok ts => Except.ok (t :: ts)

/--
The loop of `runner.all` (structscan.go:185-209).  `acc` holds the rows
appended so far (in reverse).  On a row error the accumulated rows are
dropped and Go's literal `nil` slice is returned, modelled as `none`; on
normal exit the accumulated slice is returned (possibly empty) together
with `errors.Join(rows.Err(), rows.Close())`.  The Go code wraps a setter
error as `scanner at position %d: %w`, which preserves the underlying
error; the model keeps the error itself.
-/
def allLoop {σ T : Type} (sets : List (σ → T → Except Err T)) (zero : T)
    (acc : List T) :
    List (Except Err σ) → Option Err → Option Err → Option (List T) × List Err
  | [], ie, ce => (some acc.reverse, ie.toList ++ ce.toList)
  | Except.error e :: _, _, ce => (none, e :: ce.toList)
  | Except.ok s :: rest, ie, ce =>
    match applySetters sets s zero with
    | (_, some e) => (none, e :: ce.toList)
    | (t, none) => allLoop sets zero (t :: acc) rest ie ce

/-- `runner.all` (structscan.go:185-209). -/
def runnerAll {σ T : Type} (sets : List (σ → T → Except Err T)) (zero : T)
    (c : Cursor σ) : Option (List T) × List Err :=
  allLoop sets zero [] c.rows c.iterErr c.closeErr

/--
`runner.one` (structscan.go:213-239).  Zero rows: `errors.Join(sql.ErrNoRows,
rows.Close())` (note: `rows.Err()` is not consulted on this path).  After a
successful scan and setter pass, a second successful `Next()` yields
`errors.Join(ErrTooManyRows, rows.Close())`; otherwise the cursor is
exhausted and the result is returned with
`errors.Join(rows.Err(), rows.Close())`.  On error paths the partially
built target is returned alongside the error, as in Go.
-/
def runnerOne {σ T : Type} (sets : List (σ → T → Except Err T)) (zero : T)
    (c : Cursor σ) : T × List Err :=
  match c.rows with
  | [] => (zero, Err.noRows :: c.closeErr.toList)
  | Except.error e :: _ => (zero, e :: c.closeErr.toList)
  | Except.ok s :: rest =>
    match applySetters sets s zero with
    | (t, some e) => (t, e :: c.closeErr.toList)
    | (t, none) =>
      match rest with
      | _ :: _ => (t, Err.tooManyRows :: c.closeErr.toList)
      | [] => (t, c.iterErr.toList ++ c.closeErr.toList)

/--
`runner.first` (structscan.go:241-263): like `runner.one` without the
second `Next()` check.  On its success path `rows.Err()` is called without
the cursor having reported exhaustion, so it yields no error and the final
status is `errors.Join(nil, rows.Close())`.
-/
def runnerFirst {σ T : Type} (sets : List (σ → T → Except Err T)) (zero : T)
    (c : Cursor σ) : T × List Err :=
  match c.rows with
  | [] => (zero, Err.noRows :: c.closeErr.toList)
  | Except.error e :: _ => (zero, e :: c.closeErr.toList)
  | Except.ok s :: _ =>
    match applySetters sets s zero with
    | (t, some e) => (t, e :: c.closeErr.toList)
    | (t, none) => (t, c.closeErr.toList)

/--
Integer destination kinds for `makeSetter`'s case analysis: the `reflect`
kinds `Int8 .. Int64`, `Int`, `Uint8 .. Uint64`, `Uint`.  The platform
kinds `Int`/`Uint` (`iN`/`uN`) are modelled as 64-bit, matching the 64-bit
platforms the library targets.
-/
inductive DestKind where
  | i8 | i16 | i32 | i64 | iN
  | u8 | u16 | u32 | u64 | uN
  deriving DecidableEq, Repr

def DestKind.bits : DestKind → Nat
  | .i8 => 8 | .i16 => 16 | .i32 => 32 | .i64 => 64 | .iN => 64
  | .u8 => 8 | .u16 => 16 | .u32 => 32 | .u64 => 64 | .uN => 64

def DestKind.isSigned : DestKind → Bool
  | .i8 | .i16 | .i32 | .i64 | .iN => true
  | .u8 | .u16 | .u32 | .u64 | .uN => false

/-- Errors produced by the setters of the conversion layer. -/
inductive SetErr where
  | lossyConversion
  | notAssignable
  deriving DecidableEq, Repr

/--
Value behaviour of the setter returned by `makeSetter`
(structscan.go:2374-2412) as instantiated by `IntScanner.To`
(structscan.go:895-946), for a destination field of integer kind `k`.
The scanned source is an `int64` value `v` (so `-2^63 ≤ v < 2^63`); the
result is the mathematical value stored into the field, or an error.

Case analysis of the source, in order:
* destination type `int64`, `*int64`, or of underlying type `int64`
  (cases 1-3 of `makeSetter`): the value is stored unchanged — for an
  `int64` value these coincide with the signed-kind branch below, since an
  `int64` never overflows a 64-bit destination;
* destination kind in `{Int64, Int32, Int16, Int8, Int}` (case 4): guarded
  by `reflect.Value.OverflowInt`, which errors exactly when `v` is outside
  the destination's signed range, else `SetInt` stores `v` unchanged;
* otherwise (case 5, `typ.ConvertibleTo(field.DerefType)`): for an
  unsigned integer destination of width `w`,
  `reflect.Value.Convert` applies Go's integer conversion, which keeps the
  low `w` bits, i.e. stores `v` modulo `2^w`, and never errors.
-/
def intSetter (k : DestKind) (v : Int) : Except SetErr Int :=
  if k.isSigned then
    if -(2 ^ (k.bits - 1)) ≤ v ∧ v < 2 ^ (k.bits - 1) then Except.ok v
    else Except.error SetErr.lossyConversion
  else
    Except.ok (v % 2 ^ k.bits)

/--
Value behaviour of the setter returned by `makeSetter` as instantiated by
`UintScanner.To` (structscan.go:1125-1176), for a destination field of
integer kind `k`.  The scanned source is a `uint64` value `v`
(so `0 ≤ v < 2^64`).  Unsigned destination kinds are guarded by
`reflect.Value.OverflowUint` (error exactly when `v ≥ 2^w`); signed
integer destinations fall through to the `ConvertibleTo` case, where Go's
conversion keeps the low `w` bits reinterpreted as two's complement.
-/
def uintSetter (k : DestKind) (v : Int) : Except SetErr Int :=
  if k.isSigned then
    Except.ok ((v + 2 ^ (k.bits - 1)) % 2 ^ k.bits - 2 ^ (k.bits - 1))
  else
    if v < 2 ^ k.bits then Except.ok v
    else Except.error SetErr.lossyConversion

/--
Spec-side predicate (from the claim's words): the integer `v` is exactly
representable in a destination field of kind `k`.
-/
def fitsKind (k : DestKind) (v : Int) : Bool :=
  if k.isSigned then decide (-(2 ^ (k.bits - 1)) ≤ v ∧ v < 2 ^ (k.bits - 1))
  else decide (0 ≤ v ∧ v < 2 ^ k.bits)

/--
Model of Go's reflected type tree as walked by `Schema.makeField`
(structscan.go:320-380).  A struct field is `(name, exported, type)`;
field names are modelled as `Nat` tags (the claims only compare names for
equality).  `base` stands for any non-composite type (e.g. `int`,
`string`, a slice).  Promotion of embedded fields is not modelled; the
claims do not involve embedded fields.
-/
inductive GoType where
  | ptr (elem : GoType)
  | strct (fields : List (Nat × Bool × GoType))
  | base

/-- `derefType` (structscan.go:2414-2420): strip all pointer levels. -/
def derefTypeM : GoType → GoType
  | GoType.ptr t => derefTypeM t
  | t => t

/--
Outcome of `Schema.makeField`.  `errNotFound`, `errNotExported` and
`errDepth` are the three `fmt.Errorf` returns (structscan.go:342,352,356);
`panicked` records that the Go runtime panics, which happens when
`reflect.Type.FieldByName` is called on a non-struct type
("reflect: FieldByName of non-struct type").
-/
inductive FieldRes where
  | ok (t : GoType)
  | errNotFound
  | errNotExported
  | errDepth
  | panicked

/--
The segment loop of `Schema.makeField` (structscan.go:339-365), over the
already-split path segments (`strings.SplitSeq(path, ".")`; an empty or
`"."` path short-circuits to the root before the loop, structscan.go:321).
Per segment, in source order: the depth guard `depth > 10`; pointer
stripping; `t.FieldByName(p)` — which panics if `t` is not a struct —;
the missing-field check; the exported check; then descend with
`depth + 1`.
-/
def makeFieldLoop : GoType → List Nat → Nat → FieldRes
  | t, [], _ => FieldRes.ok t
  | t, p :: rest, depth =>
    if depth > 10 then FieldRes.errDepth
    else
      match derefTypeM t with
      | GoType.strct fields =>
        match fields.find? (fun f => f.1 == p) with
        | none => FieldRes.errNotFound
        | some (_, ex, ft) =>
          if ex then makeFieldLoop ft rest (depth + 1)
          else FieldRes.errNotExported
      | _ => FieldRes.panicked

/--
A family of record types with a single exported field (tag `0`) nested to
depth `n`:  `deepType (n+1) = struct { A (deepType n) }`, `deepType 0` a
non-composite leaf.  Every prefix of the path `A.A. ... .A` of length at
most `n` names a valid exported field of `deepType n`.
-/
def deepType : Nat → GoType
  | 0 => GoType.base
  | n + 1 => GoType.strct [(0, true, deepType n)]

/--
NULL-handling branch of `valueFieldScanner.Scan` (structscan.go:2319-2333),
the branch where an absent source is representable (placeholder
`sql.Null[V]`).  `isPtrField` is `field.Type.Kind() == reflect.Pointer`;
`zero` is the field type's zero value, `field` the field's current value
on the target instance.  On NULL a pointer field is zeroed and any other
field is left untouched; no error is returned.  On a present value the
configured setter runs.
-/
def valueFieldScanNull {V F : Type} (isPtrField : Bool) (zero : F)
    (setter : F → V → Except Err F) (src : Option V) (field : F) :
    Except Err F :=
  match src with
  | none => if isPtrField then Except.ok zero else Except.ok field
  | some v => setter field v

/--
NULL-handling branch of `fieldScanner.Scan` (structscan.go:553-569), the
branch with the `*FieldType` placeholder.  On NULL the destination field
is set to its zero value (`dst.SetZero()`); on a present value the value
is assigned.  This branch cannot fail.
-/
def fieldScanNull {F : Type} (zero : F) (src : Option F) (_field : F) : F :=
  match src with
  | none => zero
  | some v => v

/--
Model of `ValueField` from the older in-repo implementation
(unnamed part_005:1226-1275): the nullable flag, the optional configured
default (`Default` stores the value and forces `nullable`,
part_005:1269-1275), and the single setter through which both present
values and a configured default are written.
-/
structure ValueField (V F : Type) where
  nullable : Bool
  defaultValue : Option V
  set : F → V → Except Err F

/--
The nullable branch of `ValueField.Scan` (part_005:1239-1253), the branch
where an absent source is representable: on NULL, the configured default
is written through the field's setter if one is configured, otherwise the
field is left untouched and no error is returned; on a present value the
setter runs on it.
-/
def ValueField.scanNull {V F : Type} (f : ValueField V F) (src : Option V)
    (field : F) : Except Err F :=
  match src with
  | none =>
    match f.defaultValue with
    | some d => f.set field d
    | none => Except.ok field
  | some v => f.set field v

/--
Go's `strings.Split` (only reached on a non-empty source below): with an
empty separator it splits into UTF-8 characters, otherwise into the
substrings between occurrences of the separator.
-/
def goStringsSplit (src sep : String) : List String :=
  if sep = "" then src.data.map (fun c => String.mk [c])
  else src.splitOn sep

/--
The converter installed by `StringScanner.Split` (structscan.go:865-873):
an empty source string yields a nil slice and no error, before
`strings.Split` is ever consulted; otherwise `strings.Split` runs.
-/
def goSplitConvert (sep : String) (src : String) : Except Err (List String) :=
  if src = "" then Except.ok []
  else Except.ok (goStringsSplit src sep)

/--
The scanner step built by `StringSliceScanner.To` for a `[]string`
destination (structscan.go:2221-2226, 2263-2274): the converter chain runs
on the scanned string and, on success, the resulting slice is stored into
the destination field; on failure the field is untouched and the error is
returned.
-/
def splitScannerStep (sep : String) (field : List String) (src : String) :
    List String × Option Err :=
  match goSplitConvert sep src with
  | Except.error e => (field, some e)
  | Except.ok val => (val, none)

/-! ## Helper lemmas -/

/-- The `runner.all` loop, characterised by `processRows`. -/
theorem allLoop_eq {σ T : Type} (sets : List (σ → T → Except Err T)) (zero : T)
    (acc : List T) (rows : List (Except Err σ)) (ie ce : Option Err) :
    allLoop sets zero acc rows ie ce =
      match processRows sets zero rows with
      | Except.error e => (none, e :: ce.toList)
      | Except.ok ts => (some (acc.reverse ++ ts), ie.toList ++ ce.toList) := by
  induction rows generalizing acc with
  | nil => simp [allLoop, processRows]
  | cons r rest ih =>
    cases r with
    | error e => simp [allLoop, processRows, processRow]
    | ok s =>
      simp only [allLoop, processRows, processRow]
      cases h : applySetters sets s zero with
      | mk t oe =>
        cases oe with
        | some e => simp
        | none =>
          simp only [ih]
          cases processRows sets zero rest <;> simp

/-- `runner.all`, characterised by `processRows`. -/
theorem runnerAll_eq {σ T : Type} (sets : List (σ → T → Except Err T))
    (zero : T) (c : Cursor σ) :
    runnerAll sets zero c =
      match processRows sets zero c.rows with
      | Except.error e => (none, e :: c.closeErr.toList)
      | Except.ok ts => (some ts, c.iterErr.toList ++ c.closeErr.toList) := by
  rw [runnerAll, allLoop_eq]
  cases processRows sets zero c.rows <;> simp

/--
Walking `k` valid exported segments of a `deepType` chain consumes `k`
segments and raises the depth counter by `k`, as long as the depth guard
`depth > 10` is never hit along the way.
-/
theorem deepType_walk : ∀ (k m j d : Nat), d + k ≤ 11 →
    makeFieldLoop (deepType (k + m)) (List.replicate (k + j) 0) d
      = makeFieldLoop (deepType m) (List.replicate j 0) (d + k) := by
  intro k
  induction k with
  | zero => intro m j d _; simp
  | succ k ih =>
    intro m j d h
    have e1 : k + 1 + m = (k + m) + 1 := by omega
    have e2 : k + 1 + j = (k + j) + 1 := by omega
    rw [e1, e2, List.replicate_succ]
    have hd : ¬ d > 10 := by omega
    show makeFieldLoop (GoType.strct [(0, true, deepType (k + m))])
        (0 :: List.replicate (k + j) 0) d = _
    rw [makeFieldLoop, if_neg hd]
    simp only [derefTypeM, List.find?]
    norm_num
    rw [ih m j (d + 1) (by omega)]
    congr 1
    omega

/-- No path of twelve or more segments ever resolves successfully. -/
theorem makeFieldLoop_no_ok : ∀ (segs : List Nat) (t : GoType) (d : Nat)
    (u : GoType), 12 ≤ d + segs.length → segs ≠ [] →
    makeFieldLoop t segs d ≠ FieldRes.ok u := by
  intro segs
  induction segs with
  | nil => intro t d u _ hne; exact absurd rfl hne
  | cons p rest ih =>
    intro t d u h _
    by_cases hd : d > 10
    · simp [makeFieldLoop, hd]
    · rw [makeFieldLoop, if_neg hd]
      cases ht : derefTypeM t with
      | ptr e => simp
      | base => simp
      | strct fields =>
        cases hfind : List.find? (fun f => f.1 == p) fields with
        | none => simp [hfind]
        | some trip =>
          obtain ⟨nm, ex, ft⟩ := trip
          cases ex with
          | false => simp [hfind]
          | true =>
            have hrest : rest ≠ [] := by
              intro hr
              subst hr
              simp at h
              omega
            have hih := ih ft (d + 1) u (by simp at h ⊢; omega) hrest
            simpa [hfind] using hih

/-! ## Claims -/

/--
Claim C1: `runner.one` over a cursor yielding zero rows reports `NoRows`
(`sql.ErrNoRows` joined with only the close error), and over a cursor
yielding two or more rows — detected by a successful second advance after
the first row was scanned and assigned — reports `TooManyRows`; both are
terminal errors distinct (as error values) from scan and conversion
errors.
-/
theorem claim_C1 {σ T : Type} (sets : List (σ → T → Except Err T)) (zero : T) :
    (∀ ie ce, (runnerOne sets zero ⟨[], ie, ce⟩).2 = Err.noRows :: ce.toList)
    ∧ (∀ (s : σ) (r : Except Err σ) (rest : List (Except Err σ)) ie ce t,
        applySetters sets s zero = (t, none) →
        (runnerOne sets zero ⟨Except.ok s :: r :: rest, ie, ce⟩).2
          = Err.tooManyRows :: ce.toList)
    ∧ (∀ code, Err.noRows ≠ Err.scanFail code ∧ Err.noRows ≠ Err.convFail code
        ∧ Err.tooManyRows ≠ Err.scanFail code
        ∧ Err.tooManyRows ≠ Err.convFail code)
    ∧ Err.noRows ≠ Err.tooManyRows := by
  refine ⟨fun ie ce => rfl, ?_, fun code => ⟨by simp, by simp, by simp, by simp⟩,
    by simp⟩
  intro s r rest ie ce t h
  simp [runnerOne, h]

/-- Witness for C1 at a concrete cursor. -/
theorem claim_C1_witness :
    (runnerOne [fun (s : Nat) (_ : Nat) => Except.ok s] 0
        ⟨[], none, none⟩).2 = [Err.noRows]
    ∧ (runnerOne [fun (s : Nat) (_ : Nat) => Except.ok s] 0
        ⟨[Except.ok 1, Except.ok 2], none, none⟩).2 = [Err.tooManyRows] := by
  constructor
  · have h := (claim_C1 [fun (s : Nat) (_ : Nat) => Except.ok s] 0).1 none none
    simpa using h
  · have h := (claim_C1 [fun (s : Nat) (_ : Nat) => Except.ok s] 0).2.1
      1 (Except.ok 2) [] none none 1 rfl
    simpa using h

/--
Claim C3: on every exit path of `runner.all`, `runner.one` and
`runner.first` the cursor is closed and its close error is appended to
the path's primary error list — never replacing it and never being
dropped in favour of it.  The theorem characterises the returned error
list exactly, path by path: for `all`, a failing row yields exactly that
row's error followed by the close error, a clean pass yields exactly the
terminal cursor error followed by the close error; for `one` and
`first`, the no-rows path yields `NoRows` then the close error, a scan
failure yields the driver error then the close error, a setter failure
yields the setter error then the close error, `one`'s extra-row path
yields `TooManyRows` then the close error, and the clean paths yield
only the final-status errors — so when the read otherwise succeeds a
close failure is still returned as the operation's error.
-/
theorem claim_C3 {σ T : Type} (sets : List (σ → T → Except Err T)) (zero : T)
    (c : Cursor σ) :
    ((∀ e, processRows sets zero c.rows = Except.error e →
        (runnerAll sets zero c).2 = e :: c.closeErr.toList)
      ∧ (∀ ts, processRows sets zero c.rows = Except.ok ts →
        (runnerAll sets zero c).2 = c.iterErr.toList ++ c.closeErr.toList))
    ∧ ((c.rows = [] →
        (runnerOne sets zero c).2 = Err.noRows :: c.closeErr.toList)
      ∧ (∀ e rest, c.rows = Except.error e :: rest →
          (runnerOne sets zero c).2 = e :: c.closeErr.toList)
      ∧ (∀ s rest t e, c.rows = Except.ok s :: rest →
          applySetters sets s zero = (t, some e) →
          (runnerOne sets zero c).2 = e :: c.closeErr.toList)
      ∧ (∀ s r rest t, c.rows = Except.ok s :: r :: rest →
          applySetters sets s zero = (t, none) →
          (runnerOne sets zero c).2 = Err.tooManyRows :: c.closeErr.toList)
      ∧ (∀ s t, c.rows = [Except.ok s] →
          applySetters sets s zero = (t, none) →
          (runnerOne sets zero c).2 = c.iterErr.toList ++ c.closeErr.toList))
    ∧ ((c.rows = [] →
        (runnerFirst sets zero c).2 = Err.noRows :: c.closeErr.toList)
      ∧ (∀ e rest, c.rows = Except.error e :: rest →
          (runnerFirst sets zero c).2 = e :: c.closeErr.toList)
      ∧ (∀ s rest t e, c.rows = Except.ok s :: rest →
          applySetters sets s zero = (t, some e) →
          (runnerFirst sets zero c).2 = e :: c.closeErr.toList)
      ∧ (∀ s rest t, c.rows = Except.ok s :: rest →
          applySetters sets s zero = (t, none) →
          (runnerFirst sets zero c).2 = c.closeErr.toList)) := by
  obtain ⟨rows, ie, ce⟩ := c
  refine ⟨⟨?_, ?_⟩, ⟨?_, ?_, ?_, ?_, ?_⟩, ⟨?_, ?_, ?_, ?_⟩⟩
  · intro e h
    have h' : processRows sets zero rows = Except.error e := h
    rw [runnerAll_eq]
    simp [h']
  · intro ts h
    have h' : processRows sets zero rows = Except.ok ts := h
    rw [runnerAll_eq]
    simp [h']
  · intro h
    have h' : rows = [] := h
    subst h'
    rfl
  · intro e rest h
    have h' : rows = Except.error e :: rest := h
    subst h'
    rfl
  · intro s rest t e hrows hset
    have h' : rows = Except.ok s :: rest := hrows
    subst h'
    simp [runnerOne, hset]
  · intro s r rest t hrows hset
    have h' : rows = Except.ok s :: r :: rest := hrows
    subst h'
    simp [runnerOne, hset]
  · intro s t hrows hset
    have h' : rows = [Except.ok s] := hrows
    subst h'
    simp [runnerOne, hset]
  · intro h
    have h' : rows = [] := h
    subst h'
    rfl
  · intro e rest h
    have h' : rows = Except.error e :: rest := h
    subst h'
    rfl
  · intro s rest t e hrows hset
    have h' : rows = Except.ok s :: rest := hrows
    subst h'
    simp [runnerFirst, hset]
  · intro s rest t hrows hset
    have h' : rows = Except.ok s :: rest := hrows
    subst h'
    simp [runnerFirst, hset]

/--
Witness for C3 at concrete cursors: on a scan-error path the driver error
is kept and the close error appended after it (the close error does not
replace it), and on a clean read with a failing close the close error is
returned as the operation's error.
-/
theorem claim_C3_witness :
    (runnerOne [fun (s : Nat) (_ : Nat) => Except.ok s] 0
        ⟨[Except.error (Err.scanFail 2)], none, some (Err.closeFail 3)⟩).2
      = [Err.scanFail 2, Err.closeFail 3]
    ∧ (runnerAll [fun (s : Nat) (_ : Nat) => Except.ok s] 0
        ⟨[Except.ok 5], none, some (Err.closeFail 3)⟩).2 = [Err.closeFail 3] := by
  have h1 := claim_C3 [fun (s : Nat) (_ : Nat) => Except.ok s] 0
    ⟨[Except.error (Err.scanFail 2)], none, some (Err.closeFail 3)⟩
  have h2 := claim_C3 [fun (s : Nat) (_ : Nat) => Except.ok s] 0
    ⟨[Except.ok 5], none, some (Err.closeFail 3)⟩
  constructor
  · have hp := h1.2.1.2.1 (Err.scanFail 2) [] rfl
    simpa using hp
  · have hp := h2.1.2 [5] rfl
    simpa using hp

/--
Counterexample to Claim C4 as stated: over a cursor with one well-formed
row whose close fails, `runner.all` returns a non-nil error **and** the
accumulated one-element slice — the error folded into the final status
does not discard the accumulated rows.
-/
theorem claim_C4_counterexample :
    (runnerAll [fun (s : Nat) (_ : Nat) => Except.ok s] 0
        ⟨[Except.ok 1], none, some (Err.closeFail 7)⟩).1 = some [1]
    ∧ (runnerAll [fun (s : Nat) (_ : Nat) => Except.ok s] 0
        ⟨[Except.ok 1], none, some (Err.closeFail 7)⟩).2 = [Err.closeFail 7] := by
  exact ⟨rfl, rfl⟩

/--
Claim C4 as amended: a per-row scan or conversion (setter) error discards
all rows accumulated by `runner.all`, which returns the nil slice, and
makes `runner.one`/`runner.first` return a non-nil error; but an error
folded into the final status (the cursor's terminal error or the close
error) is returned **alongside** the fully accumulated slice.
-/
theorem claim_C4_amended {σ T : Type} (sets : List (σ → T → Except Err T))
    (zero : T) (c : Cursor σ) :
    (∀ e, processRows sets zero c.rows = Except.error e →
        runnerAll sets zero c = (none, e :: c.closeErr.toList))
    ∧ (∀ ts, processRows sets zero c.rows = Except.ok ts →
        runnerAll sets zero c = (some ts, c.iterErr.toList ++ c.closeErr.toList))
    ∧ (∀ s rest t e, c.rows = Except.ok s :: rest →
        applySetters sets s zero = (t, some e) →
        (runnerOne sets zero c).2 ≠ [] ∧ (runnerFirst sets zero c).2 ≠ [])
    ∧ (∀ e rest, c.rows = Except.error e :: rest →
        (runnerOne sets zero c).2 ≠ [] ∧ (runnerFirst sets zero c).2 ≠ []) := by
  obtain ⟨rows, ie, ce⟩ := c
  refine ⟨?_, ?_, ?_, ?_⟩
  · intro e h
    rw [runnerAll_eq]
    simp [h]
  · intro ts h
    rw [runnerAll_eq]
    simp [h]
  · intro s rest t e hrows h
    have hrows' : rows = Except.ok s :: rest := hrows
    subst hrows'
    constructor
    · simp [runnerOne, h]
    · simp [runnerFirst, h]
  · intro e rest hrows
    have hrows' : rows = Except.error e :: rest := hrows
    subst hrows'
    constructor
    · simp [runnerOne]
    · simp [runnerFirst]

/-- Witness for the amended C4 at concrete cursors. -/
theorem claim_C4_amended_witness :
    runnerAll [fun (s : Nat) (_ : Nat) => Except.ok s] 0
        ⟨[Except.ok 1, Except.error (Err.scanFail 2)], none, none⟩
      = (none, [Err.scanFail 2])
    ∧ runnerAll [fun (s : Nat) (_ : Nat) => Except.ok s] 0
        ⟨[Except.ok 1, Except.ok 2], none, none⟩ = (some [1, 2], []) := by
  have h := claim_C4_amended [fun (s : Nat) (_ : Nat) => Except.ok s] 0
    ⟨[Except.ok 1, Except.error (Err.scanFail 2)], none, none⟩
  have h2 := claim_C4_amended [fun (s : Nat) (_ : Nat) => Except.ok s] 0
    ⟨[Except.ok 1, Except.ok 2], none, none⟩
  refine ⟨?_, ?_⟩
  · have := h.1 (Err.scanFail 2) rfl
    simpa using this
  · have := h2.2.1 [1, 2] rfl
    simpa using this

/--
Claim C7: `runner.first` is insensitive to everything after the first row
(same output for any continuation of the cursor and any terminal error);
over at least one row whose scan and setters succeed, with a clean close,
it succeeds with the value built from that first row alone; over zero
rows it still reports `NoRows`.
-/
theorem claim_C7 {σ T : Type} (sets : List (σ → T → Except Err T)) (zero : T) :
    (∀ (r : Except Err σ) (rest rest' : List (Except Err σ)) ie ie' ce,
        runnerFirst sets zero ⟨r :: rest, ie, ce⟩
          = runnerFirst sets zero ⟨r :: rest', ie', ce⟩)
    ∧ (∀ (s : σ) (rest : List (Except Err σ)) ie t,
        applySetters sets s zero = (t, none) →
        runnerFirst sets zero ⟨Except.ok s :: rest, ie, none⟩ = (t, []))
    ∧ (∀ ie ce, (runnerFirst sets zero ⟨[], ie, ce⟩).2
        = Err.noRows :: ce.toList) := by
  refine ⟨?_, ?_, fun ie ce => rfl⟩
  · intro r rest rest' ie ie' ce
    cases r with
    | error e => rfl
    | ok s =>
      simp only [runnerFirst]
  · intro s rest ie t h
    simp [runnerFirst, h]

/-- Witness for C7 at a concrete two-row cursor. -/
theorem claim_C7_witness :
    runnerFirst [fun (s : Nat) (_ : Nat) => Except.ok s] 0
        ⟨[Except.ok 9, Except.ok 8], some (Err.iterFail 1), none⟩ = (9, [])
    ∧ runnerFirst [fun (s : Nat) (_ : Nat) => Except.ok s] 0
        ⟨[Except.ok 9, Except.ok 8], some (Err.iterFail 1), none⟩
      = runnerFirst [fun (s : Nat) (_ : Nat) => Except.ok s] 0
        ⟨[Except.ok 9], none, none⟩ := by
  have hfix := (claim_C7 [fun (s : Nat) (_ : Nat) => Except.ok s] 0).1
    (Except.ok 9) [Except.ok 8] [] (some (Err.iterFail 1)) none none
  have hok := (claim_C7 [fun (s : Nat) (_ : Nat) => Except.ok s] 0).2.1
    9 [Except.ok 8] (some (Err.iterFail 1)) 9 rfl
  exact ⟨hok, hfix⟩

/--
Counterexample to Claim C2 as stated: the setter built by `IntScanner.To`
for a `uint8`-kind destination falls into `makeSetter`'s
`ConvertibleTo` case and stores the int64 value 256 as 0 — a silent wrap
with no error — although 256 is not representable in the destination.
-/
theorem claim_C2_counterexample :
    intSetter DestKind.u8 256 = Except.ok 0
    ∧ fitsKind DestKind.u8 256 = false
    ∧ (256 : Int) ≠ 0 := by
  refine ⟨?_, by decide, by decide⟩
  simp [intSetter, DestKind.isSigned, DestKind.bits]

/--
Claim C2 as amended: a destination whose kind belongs to the scanner's own
checked family (the signed kinds for the int64 setter, the unsigned kinds
for the uint64 setter) is guarded: an out-of-range value is an error and
an in-range value is stored exactly; a destination of the other integer
family is reached through `makeSetter`'s `ConvertibleTo` fallback, which
applies Go's integer conversion — truncation to the destination's width —
without error.
-/
theorem claim_C2_amended (k : DestKind) (v : Int) :
    (k.isSigned = true →
      intSetter k v = if fitsKind k v then Except.ok v
        else Except.error SetErr.lossyConversion)
    ∧ (k.isSigned = false → intSetter k v = Except.ok (v % 2 ^ k.bits))
    ∧ (k.isSigned = false → 0 ≤ v →
      uintSetter k v = if fitsKind k v then Except.ok v
        else Except.error SetErr.lossyConversion)
    ∧ (k.isSigned = true →
      uintSetter k v
        = Except.ok ((v + 2 ^ (k.bits - 1)) % 2 ^ k.bits - 2 ^ (k.bits - 1))) := by
  refine ⟨?_, ?_, ?_, ?_⟩
  · intro h
    simp only [intSetter, fitsKind, h, if_true]
    by_cases hp : -(2 ^ (k.bits - 1)) ≤ v ∧ v < 2 ^ (k.bits - 1) <;> simp [hp]
  · intro h
    simp [intSetter, h]
  · intro h h0
    simp only [uintSetter, fitsKind, h]
    by_cases hv : v < 2 ^ k.bits <;> simp [hv, h0]
  · intro h
    simp [uintSetter, h]

/-- Witness for the amended C2 at concrete kinds and values. -/
theorem claim_C2_amended_witness :
    intSetter DestKind.i8 200 = Except.error SetErr.lossyConversion
    ∧ uintSetter DestKind.u8 200 = Except.ok 200 := by
  constructor
  · have h := (claim_C2_amended DestKind.i8 200).1 rfl
    rw [h]
    simp [show fitsKind DestKind.i8 200 = false from by decide]
  · have h := (claim_C2_amended DestKind.u8 200).2.2.1 rfl (by decide)
    rw [h]
    simp [show fitsKind DestKind.u8 200 = true from by decide]

/--
Claim C5: an absent (NULL) source value reaching a scanner that writes a
plain (non-nullable) destination field with no default configured returns
no error and leaves the field at its type's zero value, in all three
NULL-capable scan paths: `valueFieldScanner.Scan` (on a freshly zeroed
target a non-pointer field is left untouched at zero, a pointer field is
explicitly zeroed), `fieldScanner.Scan` (the field is explicitly zeroed),
and the older `ValueField.Scan` with no configured default.
-/
theorem claim_C5 {V F : Type} (zero : F) (setter : F → V → Except Err F)
    (isPtrField : Bool) :
    valueFieldScanNull isPtrField zero setter none zero = Except.ok zero
    ∧ fieldScanNull zero (none : Option F) zero = zero
    ∧ (∀ st : F → V → Except Err F,
        ValueField.scanNull ⟨true, none, st⟩ none zero = Except.ok zero) := by
  refine ⟨?_, rfl, fun st => rfl⟩
  cases isPtrField <;> rfl

/--
Claim C6 is right about the code's intent but the code panics: resolving
the path `A.B` on `struct { A int }` (field tag 0 exported with
non-composite type, second segment tag 1) reaches
`reflect.Type.FieldByName` on a non-struct type, which panics instead of
returning the field-not-found error the specification promises.
-/
theorem claim_C6_bug :
    makeFieldLoop (GoType.strct [(0, true, GoType.base)]) [0, 1] 0
      = FieldRes.panicked
    ∧ FieldRes.panicked ≠ FieldRes.errNotFound
    ∧ FieldRes.panicked ≠ FieldRes.errNotExported := by
  exact ⟨rfl, by simp, by simp⟩

/--
Claim C8: in the older `ValueField` implementation, scanning an absent
(NULL) source with a configured default writes exactly the configured
default through the field's single setter (with the plain assignment
setter the field becomes the default itself); without a default the field
is left untouched (its zero value on a fresh target).  The write is a
single atomic step — the field receives either the default or stays at
zero, never a mixture.
-/
theorem claim_C8 {V F : Type} (field : F) (d : V)
    (st : F → V → Except Err F) :
    ValueField.scanNull ⟨true, some d, st⟩ none field = st field d
    ∧ ValueField.scanNull ⟨true, none, st⟩ none field = Except.ok field
    ∧ (∀ (w dv : V),
        ValueField.scanNull ⟨true, some dv, fun _ v => Except.ok v⟩ none w
          = Except.ok dv) := by
  exact ⟨rfl, rfl, fun w dv => rfl⟩

/--
Claim C9: for every separator, the `Split` converter maps the empty source
string to an empty slice with no error — the destination slice stays
empty — and that result is not the one-element slice holding the empty
string (which is what `strings.Split` itself would produce on an empty
source with a non-empty separator).
-/
theorem claim_C9 (sep : String) (field : List String) :
    splitScannerStep sep field "" = ([], none)
    ∧ ([] : List String) ≠ [ "" ]
    ∧ (sep ≠ "" → goStringsSplit "" sep = [ "" ]) := by
  refine ⟨?_, by simp, ?_⟩
  · simp [splitScannerStep, goSplitConvert]
  · intro h
    rw [goStringsSplit, if_neg h, String.splitOn, if_neg (by simpa using h)]
    rw [String.splitOnAux]
    simp [String.atEnd, String.extract]
    exact fun hc => absurd rfl hc

/--
Claim C10: the segment loop of `Schema.makeField` rejects every path of
twelve or more segments (no such path ever resolves); on the nested
record family `deepType` — where every segment names a valid exported
field — a path of `11 + j` segments (`j ≥ 1`) fails with exactly the
depth-limit error, while every path of up to eleven segments resolves
successfully.
-/
theorem claim_C10 :
    (∀ (t : GoType) (segs : List Nat) (u : GoType), 12 ≤ segs.length →
        makeFieldLoop t segs 0 ≠ FieldRes.ok u)
    ∧ (∀ j m, 1 ≤ j → j ≤ m →
        makeFieldLoop (deepType (11 + m)) (List.replicate (11 + j) 0) 0
          = FieldRes.errDepth)
    ∧ (∀ n, n ≤ 11 →
        makeFieldLoop (deepType n) (List.replicate n 0) 0
          = FieldRes.ok GoType.base) := by
  refine ⟨?_, ?_, ?_⟩
  · intro t segs u h
    refine makeFieldLoop_no_ok segs t 0 u (by omega) ?_
    intro hn
    subst hn
    simp at h
  · intro j m hj _
    have hw := deepType_walk 11 m j 0 (by omega)
    rw [hw]
    match j, hj with
    | j' + 1, _ =>
      rw [List.replicate_succ]
      simp [makeFieldLoop]
  · intro n hn
    have hw := deepType_walk n 0 0 0 (by omega)
    simpa [makeFieldLoop, deepType] using hw

/-- Witness for C10 at the concrete depths twelve and eleven. -/
theorem claim_C10_witness :
    makeFieldLoop (deepType 12) (List.replicate 12 0) 0 = FieldRes.errDepth
    ∧ makeFieldLoop (deepType 11) (List.replicate 11 0) 0
        = FieldRes.ok GoType.base := by
  constructor
  · have h := claim_C10.2.1 1 1 (by decide) (by decide)
    simpa using h
  · exact claim_C10.2.2 11 (by decide)

end Structscan
